import Mathlib

/-!
Verification of the Stario platform job-queue, worker and rate-limiter core.

The development shallowly embeds the Python sources:
  shared/python-lib/stario_common/redis_client.py  (queue, side table, rate limiter)
  services/video-gen/app/worker.py                 (worker loop)
  services/face-similarity/app/main.py             (ephemeral deletion task)

The Redis store is modeled as explicit association lists; the JSON values
stored in it are modeled by the inductive type JVal. Serialization through
json.dumps and json.loads is kept at the value level: the Python serializer is
deterministic and Python dicts preserve insertion order, so value equality of
envelopes coincides with byte equality of their serialized forms.
-/

namespace Stario

/-- JSON-like values, as produced by json.loads on the payloads and results
this subsystem stores. -/
inductive JVal where
  | jnull : JVal
  | jbool : Bool → JVal
  | jnum : Int → JVal
  | jstr : String → JVal
  | jobj : List (String × JVal) → JVal

/-- Lookup of a field in a JSON object field list (Python dict access). -/
def lookupField : List (String × JVal) → String → Option JVal
  | [], _ => none
  | (k, v) :: rest, key => if k = key then some v else lookupField rest key

/-- Python dict.get on a JSON value: a field of an object, none otherwise. -/
def JVal.get : JVal → String → Option JVal
  | .jobj fs, key => lookupField fs key
  | _, _ => none

/-- A job envelope, as built by RedisClient.enqueue:
the dict with keys id, status, data, and optionally result (added later by
update_job). -/
structure Job where
  id : String
  status : String
  data : JVal
  result : Option JVal

/-- Association list lookup with string keys (a Redis GET). -/
def alistGet {β : Type} : List (String × β) → String → Option β
  | [], _ => none
  | (k, v) :: rest, key => if k = key then some v else alistGet rest key

/-- Association list update with string keys (a Redis SET): overwrites the
binding for the key if present, otherwise appends a new binding. -/
def alistSet {β : Type} : List (String × β) → String → β → List (String × β)
  | [], key, v => [(key, v)]
  | (k, w) :: rest, key, v =>
      if k = key then (key, v) :: rest else (k, w) :: alistSet rest key v

/-- The state of the queue database (Redis queue db): the named lists holding
pushed envelopes, and the side table of envelopes keyed by job:(id). -/
structure QueueDB where
  queues : List (String × List Job)
  table : List (String × Job)

/-- The empty database. -/
def emptyDB : QueueDB := ⟨[], []⟩

/-- The contents of a named list; a missing key is the empty list. -/
def QueueDB.getList (db : QueueDB) (q : String) : List Job :=
  (alistGet db.queues q).getD []

/-- Redis LPUSH: prepend an envelope at the head of the named list. -/
def QueueDB.lpush (db : QueueDB) (q : String) (j : Job) : QueueDB :=
  { db with queues := alistSet db.queues q (j :: db.getList q) }

/-- Redis BRPOP: pop from the tail of the named list; none when the list is
empty or absent (the blocking wait timed out). -/
def QueueDB.brpop (db : QueueDB) (q : String) : Option Job × QueueDB :=
  match (db.getList q).getLast? with
  | none => (none, db)
  | some j => (some j, { db with queues := alistSet db.queues q (db.getList q).dropLast })

/-- Redis SET of a serialized envelope under a string key. -/
def QueueDB.setKey (db : QueueDB) (key : String) (j : Job) : QueueDB :=
  { db with table := alistSet db.table key j }

/-- Redis GET of a serialized envelope under a string key. -/
def QueueDB.getKey (db : QueueDB) (key : String) : Option Job :=
  alistGet db.table key

/-- RedisClient.enqueue: build the envelope with status pending and the given
payload, LPUSH it onto the named list, SET it under job:(id), return the id.
The uuid4 value generated inside the function is modeled by the fresh_id
argument. -/
def enqueue (db : QueueDB) (queue_name : String) (job_data : JVal)
    (fresh_id : String) : String × QueueDB :=
  let job : Job := { id := fresh_id, status := "pending", data := job_data, result := none }
  let db1 := db.lpush queue_name job
  let db2 := db1.setKey ("job:" ++ fresh_id) job
  (fresh_id, db2)

/-- RedisClient.dequeue: BRPOP from the named list. -/
def dequeue (db : QueueDB) (queue_name : String) : Option Job × QueueDB :=
  db.brpop queue_name

/-- RedisClient.get_job: GET the envelope stored under job:(id). -/
def get_job (db : QueueDB) (job_id : String) : Option Job :=
  db.getKey ("job:" ++ job_id)

/-- RedisClient.update_job: read the envelope, overwrite status, set result
only when one is given, write the envelope back; silently do nothing when the
id has no entry. -/
def update_job (db : QueueDB) (job_id : String) (status : String)
    (result : Option JVal) : QueueDB :=
  match get_job db job_id with
  | none => db
  | some j =>
      let j1 := { j with status := status }
      let j2 := match result with
        | none => j1
        | some r => { j1 with result := some r }
      db.setKey ("job:" ++ job_id) j2

/-- A list of update_job calls applied in order: each entry carries the id,
the status and the optional result of one call. -/
def apply_updates : List (String × String × Option JVal) → QueueDB → QueueDB
  | [], db => db
  | (i, st, r) :: rest, db => apply_updates rest (update_job db i st r)

/-- The state of the rate-limiter database: the counters and the ttls that
EXPIRE has set on them. -/
structure RLState where
  counters : List (String × Int)
  ttls : List (String × Nat)

/-- The empty rate-limiter state. -/
def emptyRL : RLState := ⟨[], []⟩

/-- Redis INCR: increment the integer at the key, initializing an absent key
to 0 first; returns the post-increment value. -/
def RLState.incr (st : RLState) (key : String) : Int × RLState :=
  let v := (alistGet st.counters key).getD 0 + 1
  (v, { st with counters := alistSet st.counters key v })

/-- Redis EXPIRE: set the ttl of the key. -/
def RLState.expire (st : RLState) (key : String) (seconds : Nat) : RLState :=
  { st with ttls := alistSet st.ttls key seconds }

/-- RedisClient.check_rate_limit: INCR the counter; on a post-increment value
of 1, EXPIRE the key with the window; return
(allowed, remaining) = (current <= max_requests, max 0 (max_requests - current)). -/
def check_rate_limit (st : RLState) (key : String) (max_requests : Int)
    (window_seconds : Nat) : (Bool × Int) × RLState :=
  let p := st.incr key
  let current := p.1
  let st1 := p.2
  let st2 := if current = 1 then st1.expire key window_seconds else st1
  let remaining := max 0 (max_requests - current)
  let allowed := decide (current ≤ max_requests)
  ((allowed, remaining), st2)

/-- Successive check_rate_limit calls for a list of identities, collecting the
(allowed, remaining) answers. -/
def rl_run (st : RLState) (max_requests : Int) (window_seconds : Nat) :
    List String → List (Bool × Int) × RLState
  | [] => ([], st)
  | key :: rest =>
      let r := check_rate_limit st key max_requests window_seconds
      let rs := rl_run r.2 max_requests window_seconds rest
      (r.1 :: rs.1, rs.2)

/-- The envelope enqueue builds for id i and payload p. -/
def mk_pending (i : String) (p : JVal) : Job :=
  { id := i, status := "pending", data := p, result := none }

/-- A sequence of enqueue calls on the same queue, one per (fresh id, payload)
pair, in list order. -/
def enqueue_all (db : QueueDB) (q : String) : List (String × JVal) → QueueDB
  | [] => db
  | (i, p) :: rest => enqueue_all (enqueue db q p i).2 q rest

/-- n successive dequeue calls by a single consumer, collecting the envelopes
received; stops early when the queue runs empty. -/
def drain : QueueDB → String → Nat → List Job
  | _, _, 0 => []
  | db, q, n + 1 =>
      match dequeue db q with
      | (none, _) => []
      | (some j, db1) => j :: drain db1 q n

/-- The list-level description of draining: repeatedly take the last element
(Redis BRPOP pops the tail). -/
def drainList : List Job → Nat → List Job
  | _, 0 => []
  | l, n + 1 =>
      match l.getLast? with
      | none => []
      | some j => j :: drainList l.dropLast n

/-- Settings.gpu_max_concurrent_jobs (stario_common/config.py): default 4. -/
def gpu_max_concurrent_jobs : Nat := 4

/-- The id the worker passes to update_job in _process_job: the job_id field
of the dequeued payload, rendered the way the Python f-string job:(id) later
renders it. A payload without a job_id field gives Python None, rendered
None; non-string field values other than objects are rendered by str. An
object value (which never occurs in this codebase) is approximated by a
fixed marker. -/
def worker_job_id (job_data : JVal) : String :=
  match job_data.get "job_id" with
  | some (.jstr s) => s
  | some .jnull => "None"
  | some (.jbool b) => cond b "True" "False"
  | some (.jnum n) => toString n
  | some (.jobj _) => "dict"
  | none => "None"

/-- VideoGenerationWorker._process_job: mark the job processing, run the
generation callback, and on success mark it completed with the result, on an
exception mark it failed with the exception message as the error field. The
callback (generator.generate plus the shaping of its output into the result
dict, both external AI work) is modeled by its outcome: ok with the result
value written on success, or error with the exception message str(e). The try
block catches every exception, so the function always returns a database. -/
def process_job (generate : JVal → Except String JVal) (db : QueueDB)
    (job_data : JVal) : QueueDB :=
  let job_id := worker_job_id job_data
  let db1 := update_job db job_id "processing" none
  match generate job_data with
  | .ok result => update_job db1 job_id "completed" (some result)
  | .error e => update_job db1 job_id "failed" (some (.jobj [("error", .jstr e)]))

/-- One pass of VideoGenerationWorker._process_queue, run to completion:
under backpressure (in-flight count at or above the bound) sleep and return;
otherwise dequeue, and when a job arrives, process its data field. The
in-flight counter is incremented before _process_job and decremented in the
finally block, so a completed pass returns it unchanged. -/
def process_queue (generate : JVal → Except String JVal) (max_concurrent : Nat)
    (current_jobs : Nat) (db : QueueDB) (queue_name : String) : Nat × QueueDB :=
  if max_concurrent ≤ current_jobs then (current_jobs, db)
  else
    match dequeue db queue_name with
    | (none, db1) => (current_jobs, db1)
    | (some job, db1) => (current_jobs, process_job generate db1 job.data)

/-- A worker state between suspension points of the loop: the in-flight
counter self._current_jobs, the queue database, and the payloads of the jobs
between their counter increment and decrement. -/
structure WorkerState where
  current_jobs : Nat
  db : QueueDB
  inflight : List JVal

/-- The worker state at startup: no jobs in flight. -/
def WorkerState.init (db : QueueDB) : WorkerState := ⟨0, db, []⟩

/-- Small-step semantics of the worker loop (_process_queue iterated by
start), with the processing of a job split at its suspension points so that
states with several jobs in flight are represented:
backpressure is the early return when the counter has reached the bound;
poll_empty is a dequeue that timed out; start_job dequeues a job and
increments the counter; finish_job runs the processing of one in-flight
payload and decrements the counter (the finally block). -/
inductive WorkerStep (generate : JVal → Except String JVal) (max_concurrent : Nat)
    (queue_name : String) : WorkerState → WorkerState → Prop where
  | backpressure (s : WorkerState) (h : max_concurrent ≤ s.current_jobs) :
      WorkerStep generate max_concurrent queue_name s s
  | poll_empty (s : WorkerState) (h : s.current_jobs < max_concurrent)
      (he : (dequeue s.db queue_name).1 = none) :
      WorkerStep generate max_concurrent queue_name s
        ⟨s.current_jobs, (dequeue s.db queue_name).2, s.inflight⟩
  | start_job (s : WorkerState) (j : Job) (h : s.current_jobs < max_concurrent)
      (hj : (dequeue s.db queue_name).1 = some j) :
      WorkerStep generate max_concurrent queue_name s
        ⟨s.current_jobs + 1, (dequeue s.db queue_name).2, j.data :: s.inflight⟩
  | finish_job (s : WorkerState) (d : JVal) (rest : List JVal)
      (hin : s.inflight = d :: rest) :
      WorkerStep generate max_concurrent queue_name s
        ⟨s.current_jobs - 1, process_job generate s.db d, rest⟩

/-- Reachability of a worker state from the startup state. -/
def WorkerReachable (generate : JVal → Except String JVal) (max_concurrent : Nat)
    (queue_name : String) (db : QueueDB) (s : WorkerState) : Prop :=
  Relation.ReflTransGen (WorkerStep generate max_concurrent queue_name)
    (WorkerState.init db) s

/-- What the deferred deletion task logged. -/
inductive DeletionLog where
  | deleted (key : String)
  | delete_failed (key : String) (err : String)

/-- The observable outcome of one run of the deferred deletion task: how many
seconds after scheduling it fired, the object store afterwards, and the log
line it wrote. -/
structure DeletionOutcome where
  fired_after : Nat
  store : List String
  log : DeletionLog

/-- _schedule_deletion (face-similarity main.py): sleep delay_seconds, then
try to delete the object at key, logging success; any exception from the
deletion is caught and logged as an error. The external s3.delete_file call
is modeled by its outcome delete_res: ok with the store after deletion, or
error with the exception message. The Except in the return type is the
channel by which an uncaught exception would reach whoever awaits the task. -/
def schedule_deletion (store : List String) (delete_res : Except String (List String))
    (key : String) (delay_seconds : Nat) : Except String DeletionOutcome :=
  match delete_res with
  | .ok st => .ok ⟨delay_seconds, st, .deleted key⟩
  | .error e => .ok ⟨delay_seconds, store, .delete_failed key e⟩

/-! ### Helper lemmas on the store primitives -/

theorem alistGet_alistSet_self {β : Type} (l : List (String × β)) (key : String) (v : β) :
    alistGet (alistSet l key v) key = some v := by
  induction l with
  | nil => simp [alistGet, alistSet]
  | cons hd tl ih =>
      obtain ⟨k, w⟩ := hd
      by_cases h : k = key
      · simp [alistSet, alistGet, h]
      · simp [alistSet, alistGet, h, ih]

theorem alistGet_alistSet_ne {β : Type} (l : List (String × β)) (key key2 : String) (v : β)
    (h : key ≠ key2) : alistGet (alistSet l key v) key2 = alistGet l key2 := by
  induction l with
  | nil => simp [alistGet, alistSet, h]
  | cons hd tl ih =>
      obtain ⟨k, w⟩ := hd
      by_cases hk : k = key
      · subst hk
        simp [alistSet, alistGet, h]
      · simp [alistSet, alistGet, hk, ih]

theorem get_job_enqueue (db : QueueDB) (q : String) (payload : JVal) (fresh : String) :
    get_job (enqueue db q payload fresh).2 fresh = some (mk_pending fresh payload) := by
  unfold enqueue get_job QueueDB.getKey QueueDB.setKey QueueDB.lpush mk_pending
  simp [alistGet_alistSet_self]

theorem getList_enqueue (db : QueueDB) (q : String) (payload : JVal) (fresh : String) :
    ((enqueue db q payload fresh).2).getList q = mk_pending fresh payload :: db.getList q := by
  unfold enqueue QueueDB.setKey QueueDB.lpush QueueDB.getList mk_pending
  simp [alistGet_alistSet_self]

theorem queues_enqueue (db : QueueDB) (q : String) (payload : JVal) (fresh : String) :
    ((enqueue db q payload fresh).2).queues =
      alistSet db.queues q (mk_pending fresh payload :: db.getList q) := rfl

/-- update_job never changes the data field visible through get_job, at any
id: an update to another id leaves the entry alone, and an update to the same
id rewrites status and result but copies data. -/
theorem get_job_update_job_data (db : QueueDB) (i st : String) (r : Option JVal)
    (jid : String) :
    (get_job (update_job db i st r) jid).map Job.data =
      (get_job db jid).map Job.data := by
  unfold update_job
  cases hj : get_job db i with
  | none => rfl
  | some j =>
      show ((QueueDB.setKey db ("job:" ++ i) _).getKey ("job:" ++ jid)).map Job.data = _
      unfold QueueDB.getKey QueueDB.setKey
      by_cases hk : ("job:" ++ i : String) = "job:" ++ jid
      · rw [hk, alistGet_alistSet_self]
        have hdb : alistGet db.table ("job:" ++ jid) = some j := by
          rw [← hk]; exact hj
        have hrhs : get_job db jid = some j := hdb
        rw [hrhs]
        cases r <;> rfl
      · rw [alistGet_alistSet_ne _ _ _ _ hk]
        rfl

/-- The frame of update_job: it only writes the side table, never the queues. -/
theorem queues_update_job (db : QueueDB) (i st : String) (r : Option JVal) :
    (update_job db i st r).queues = db.queues := by
  unfold update_job
  cases get_job db i with
  | none => rfl
  | some j => rfl

theorem apply_updates_data (us : List (String × String × Option JVal)) (db : QueueDB)
    (jid : String) :
    (get_job (apply_updates us db) jid).map Job.data =
      (get_job db jid).map Job.data := by
  induction us generalizing db with
  | nil => rfl
  | cons u rest ih =>
      obtain ⟨i, st, r⟩ := u
      rw [show apply_updates ((i, st, r) :: rest) db =
            apply_updates rest (update_job db i st r) from rfl,
        ih, get_job_update_job_data]

theorem queues_apply_updates (us : List (String × String × Option JVal)) (db : QueueDB) :
    (apply_updates us db).queues = db.queues := by
  induction us generalizing db with
  | nil => rfl
  | cons u rest ih =>
      obtain ⟨i, st, r⟩ := u
      rw [show apply_updates ((i, st, r) :: rest) db =
            apply_updates rest (update_job db i st r) from rfl,
        ih, queues_update_job]

/-! ### Claim theorems -/

/-- C3: enqueue builds the envelope with status pending and the given payload,
stores it under job:(id) in the side table, pushes the same envelope onto the
head of the named list, and returns the generated id, so get_job on the
returned id immediately yields the pending envelope with the original
payload. The fresh uuid4 generated inside enqueue is the fresh argument. -/
theorem claim_C3_enqueue_pending (db : QueueDB) (q : String) (payload : JVal)
    (fresh : String) :
    (enqueue db q payload fresh).1 = fresh ∧
    get_job (enqueue db q payload fresh).2 fresh =
      some { id := fresh, status := "pending", data := payload, result := none } ∧
    ((enqueue db q payload fresh).2).getList q =
      { id := fresh, status := "pending", data := payload, result := none } :: db.getList q :=
  ⟨rfl, get_job_enqueue db q payload fresh, getList_enqueue db q payload fresh⟩

/-- C7: update_job on an id with no side-table entry raises nothing and
leaves the whole store state unchanged. -/
theorem claim_C7_update_missing_noop (db : QueueDB) (job_id status : String)
    (result : Option JVal) (h : get_job db job_id = none) :
    update_job db job_id status result = db := by
  unfold update_job
  rw [h]

/-- Witness for C7 at a concrete input: the empty store has no entry for the
id missing, and updating it is the identity. -/
theorem claim_C7_witness :
    get_job emptyDB "missing" = none ∧
    update_job emptyDB "missing" "completed" none = emptyDB :=
  ⟨rfl, claim_C7_update_missing_noop emptyDB "missing" "completed" none rfl⟩

/-- C2: check_rate_limit increments the counter of the key (the post state
holds the old value plus one), sets the ttl to the window exactly when the
post-increment value is 1, and returns allowed = (value <= max_requests) and
remaining = max 0 (max_requests - value); four successive calls with
max_requests 3 from one identity answer allowed true, true, true, false with
remaining 2, 1, 0, 0. The atomicity of INCR is modeled by the increment
being a single step of the embedding. -/
theorem claim_C2_rate_limit (st : RLState) (key : String) (max_requests : Int)
    (window_seconds : Nat) :
    (check_rate_limit st key max_requests window_seconds).1.1 =
      decide ((alistGet st.counters key).getD 0 + 1 ≤ max_requests) ∧
    (check_rate_limit st key max_requests window_seconds).1.2 =
      max 0 (max_requests - ((alistGet st.counters key).getD 0 + 1)) ∧
    alistGet (check_rate_limit st key max_requests window_seconds).2.counters key =
      some ((alistGet st.counters key).getD 0 + 1) ∧
    alistGet (check_rate_limit st key max_requests window_seconds).2.ttls key =
      (if (alistGet st.counters key).getD 0 + 1 = 1 then some window_seconds
       else alistGet st.ttls key) ∧
    (rl_run emptyRL 3 60 ["u1", "u1", "u1", "u1"]).1 =
      [(true, 2), (true, 1), (true, 0), (false, 0)] := by
  refine ⟨rfl, rfl, ?_, ?_, by rfl⟩
  · unfold check_rate_limit RLState.incr RLState.expire
    by_cases h1 : (alistGet st.counters key).getD 0 + 1 = 1 <;>
      simp [h1, alistGet_alistSet_self]
  · unfold check_rate_limit RLState.incr RLState.expire
    by_cases h1 : (alistGet st.counters key).getD 0 + 1 = 1 <;>
      simp [h1, alistGet_alistSet_self]

/-- C5: the data field of an envelope created by enqueue survives any number
of update_job calls with any arguments: get_job still yields the enqueue
payload (value equality, which coincides with byte equality of the
deterministic serialization). -/
theorem claim_C5_payload_immutable (db : QueueDB) (q : String) (payload : JVal)
    (fresh : String) (us : List (String × String × Option JVal)) :
    (get_job (apply_updates us (enqueue db q payload fresh).2) fresh).map Job.data =
      some payload := by
  rw [apply_updates_data, get_job_enqueue]
  rfl

/-- C9: the deferred deletion task fires after exactly delay_seconds; a
successful deletion is logged as deleted, a failed deletion is caught and
logged with the exception message; in both cases the task returns ok, so no
error ever reaches whoever scheduled it. -/
theorem claim_C9_deletion_caught (store st : List String) (key : String)
    (delay_seconds : Nat) (e : String) :
    schedule_deletion store (.ok st) key delay_seconds =
      .ok ⟨delay_seconds, st, .deleted key⟩ ∧
    schedule_deletion store (.error e) key delay_seconds =
      .ok ⟨delay_seconds, store, .delete_failed key e⟩ :=
  ⟨rfl, rfl⟩

theorem getList_enqueue_all (items : List (String × JVal)) (db : QueueDB) (q : String) :
    (enqueue_all db q items).getList q =
      (items.map fun it => mk_pending it.1 it.2).reverse ++ db.getList q := by
  induction items generalizing db with
  | nil => simp [enqueue_all]
  | cons it rest ih =>
      obtain ⟨i, p⟩ := it
      rw [show enqueue_all db q ((i, p) :: rest) =
            enqueue_all (enqueue db q p i).2 q rest from rfl,
        ih, getList_enqueue]
      simp

theorem drain_eq (n : Nat) (db : QueueDB) (q : String) :
    drain db q n = drainList (db.getList q) n := by
  induction n generalizing db with
  | zero => rfl
  | succ n ih =>
      show (match dequeue db q with
            | (none, _) => []
            | (some j, db1) => j :: drain db1 q n) =
        (match (db.getList q).getLast? with
         | none => []
         | some j => j :: drainList (db.getList q).dropLast n)
      rw [show dequeue db q = db.brpop q from rfl]
      unfold QueueDB.brpop
      cases hl : (db.getList q).getLast? with
      | none => rfl
      | some j =>
          show j :: drain { db with queues := alistSet db.queues q (db.getList q).dropLast } q n =
            j :: drainList (db.getList q).dropLast n
          rw [ih]
          congr 1
          simp [QueueDB.getList, alistGet_alistSet_self]

theorem drainList_reverse (l : List Job) : drainList l l.length = l.reverse := by
  induction l using List.reverseRecOn with
  | nil => rfl
  | append_singleton l a ih =>
      rw [show (l ++ [a]).length = l.length + 1 by simp]
      show (match (l ++ [a]).getLast? with
            | none => []
            | some j => j :: drainList (l ++ [a]).dropLast l.length) = _
      rw [List.getLast?_concat, List.dropLast_concat, ih]
      simp

/-- C4: FIFO. After enqueuing any sequence of jobs on an empty named queue,
a single consumer doing successive dequeues receives exactly the pending
envelopes of those jobs in enqueue order. LPUSH prepends at the head and
BRPOP pops the tail, so the list behaves as a FIFO queue. -/
theorem claim_C4_fifo (db : QueueDB) (q : String) (items : List (String × JVal))
    (h : db.getList q = []) :
    drain (enqueue_all db q items) q items.length =
      items.map fun it => mk_pending it.1 it.2 := by
  rw [drain_eq, getList_enqueue_all, h, List.append_nil,
    show items.length = ((items.map fun it => mk_pending it.1 it.2).reverse).length by simp,
    drainList_reverse, List.reverse_reverse]

/-- Witness for C4 at a concrete input: two jobs enqueued on the empty store
come back in enqueue order. -/
theorem claim_C4_witness :
    drain (enqueue_all emptyDB "greet" [("a", .jstr "x"), ("b", .jstr "y")]) "greet" 2 =
      [mk_pending "a" (.jstr "x"), mk_pending "b" (.jstr "y")] :=
  claim_C4_fifo emptyDB "greet" [("a", .jstr "x"), ("b", .jstr "y")] rfl

/-- One worker step keeps the in-flight counter below the bound: the only
step that raises it, start_job, is guarded by the backpressure check of
_process_queue. -/
theorem workerstep_bound {generate : JVal → Except String JVal} {max_concurrent : Nat}
    {queue_name : String} {s t : WorkerState}
    (hstep : WorkerStep generate max_concurrent queue_name s t)
    (h : s.current_jobs ≤ max_concurrent) : t.current_jobs ≤ max_concurrent := by
  cases hstep with
  | backpressure _ => exact h
  | poll_empty _ _ => exact h
  | start_job _ hlt _ => exact hlt
  | finish_job _ _ _ => exact Nat.le_trans (Nat.sub_le _ _) h

/-- C8: in every state of the worker loop reachable from startup, the
in-flight counter is at most max_concurrent, because the loop sleeps and
retries instead of dequeuing once the counter has reached the bound. -/
theorem claim_C8_inflight_bounded (generate : JVal → Except String JVal)
    (max_concurrent : Nat) (queue_name : String) (db : QueueDB) (s : WorkerState)
    (h : WorkerReachable generate max_concurrent queue_name db s) :
    s.current_jobs ≤ max_concurrent := by
  unfold WorkerReachable at h
  induction h with
  | refl => exact Nat.zero_le _
  | tail _ hbc ih => exact workerstep_bound hbc ih

/-- Witness for C8 at a concrete input: with the observed default bound of 4,
the state reached by dequeuing and starting one job from a one-job queue has
one job in flight, within the bound. -/
theorem claim_C8_witness :
    (1 : Nat) ≤ gpu_max_concurrent_jobs :=
  claim_C8_inflight_bounded (fun _ => .ok .jnull) gpu_max_concurrent_jobs
    "video_generation" (enqueue emptyDB "video_generation" .jnull "w1").2
    ⟨0 + 1,
      (dequeue (enqueue emptyDB "video_generation" .jnull "w1").2 "video_generation").2,
      (mk_pending "w1" JVal.jnull).data :: []⟩
    (Relation.ReflTransGen.single
      (WorkerStep.start_job _ (mk_pending "w1" JVal.jnull) (by decide) rfl))

/-- C10: update_job writes only the side table: the queues of the store are
untouched by any number of update_job calls, so a dequeue that happens after
them still returns the envelope exactly as enqueue built it, status pending. -/
theorem claim_C10_updates_leave_queue (db : QueueDB) (q : String) (payload : JVal)
    (fresh : String) (us : List (String × String × Option JVal))
    (h : db.getList q = []) :
    (apply_updates us (enqueue db q payload fresh).2).queues =
      ((enqueue db q payload fresh).2).queues ∧
    (dequeue (apply_updates us (enqueue db q payload fresh).2) q).1 =
      some { id := fresh, status := "pending", data := payload, result := none } := by
  refine ⟨queues_apply_updates us _, ?_⟩
  show ((apply_updates us (enqueue db q payload fresh).2).brpop q).1 = _
  unfold QueueDB.brpop QueueDB.getList
  rw [queues_apply_updates]
  rw [show ((enqueue db q payload fresh).2).queues =
        alistSet db.queues q (mk_pending fresh payload :: db.getList q) from rfl,
    alistGet_alistSet_self]
  rw [show (some (mk_pending fresh payload :: db.getList q)).getD [] =
        mk_pending fresh payload :: db.getList q from rfl, h]
  rfl

/-- Witness for C10 at a concrete input: a completed-status update does not
disturb the queued copy of the envelope. -/
theorem claim_C10_witness :
    (apply_updates [("a", "completed", some JVal.jnull)]
        (enqueue emptyDB "q" JVal.jnull "a").2).queues =
      ((enqueue emptyDB "q" JVal.jnull "a").2).queues ∧
    (dequeue (apply_updates [("a", "completed", some JVal.jnull)]
        (enqueue emptyDB "q" JVal.jnull "a").2) "q").1 =
      some { id := "a", status := "pending", data := JVal.jnull, result := none } :=
  claim_C10_updates_leave_queue emptyDB "q" JVal.jnull "a"
    [("a", "completed", some JVal.jnull)] rfl

/-- C1 (refuted on the code): in the spec scenario the payload has no job_id
field, so the worker passes the Python None to update_job, whose key job:None
has no entry, and both status updates are silent no-ops; get_job on the id
returned by enqueue still answers the pending envelope after the callback has
returned its result, never a completed one. On the production path the
handler puts its own uuid in the payload and returns that uuid to the client,
but enqueue stores the envelope under a different fresh id, so the worker
updates, and the client polls, a key that never exists: get_job on the
payload uuid answers none. -/
theorem claim_C1_completed_unobservable :
    (dequeue (enqueue emptyDB "greet" (.jobj [("text", .jstr "hi")]) "id-1").2 "greet").1 =
      some { id := "id-1", status := "pending",
             data := .jobj [("text", .jstr "hi")], result := none } ∧
    get_job
      (process_job (fun _ => .ok (.jobj [("echo", .jstr "hi")]))
        (dequeue (enqueue emptyDB "greet" (.jobj [("text", .jstr "hi")]) "id-1").2 "greet").2
        (.jobj [("text", .jstr "hi")]))
      "id-1" =
      some { id := "id-1", status := "pending",
             data := .jobj [("text", .jstr "hi")], result := none } ∧
    get_job
      (process_job (fun _ => .ok (.jobj [("video_url", .jstr "u")]))
        (dequeue (enqueue emptyDB "video_generation"
          (.jobj [("job_id", .jstr "client-1")]) "srv-1").2 "video_generation").2
        (.jobj [("job_id", .jstr "client-1")]))
      "client-1" = none :=
  ⟨rfl, rfl, rfl⟩

/-- C6 (refuted in part on the code): the exception from the generation
callback is caught inside _process_job (modeled by process_job being a total
function on the callback outcome) and the loop goes on to dequeue the next
job, but the dequeued job never becomes failed: the worker passes the job_id
taken from the payload to update_job, the side table has no entry under that
key, and the failure record is silently dropped; the envelope of the job
keeps status pending with no error field. -/
theorem claim_C6_failure_dropped :
    get_job
      (process_job (fun _ => .error "boom")
        (dequeue (enqueue_all emptyDB "greet"
          [("id-a", .jobj [("text", .jstr "a")]), ("id-b", .jobj [("text", .jstr "b")])])
          "greet").2
        (.jobj [("text", .jstr "a")]))
      "id-a" =
      some { id := "id-a", status := "pending",
             data := .jobj [("text", .jstr "a")], result := none } ∧
    (dequeue
      (process_job (fun _ => .error "boom")
        (dequeue (enqueue_all emptyDB "greet"
          [("id-a", .jobj [("text", .jstr "a")]), ("id-b", .jobj [("text", .jstr "b")])])
          "greet").2
        (.jobj [("text", .jstr "a")]))
      "greet").1 =
      some { id := "id-b", status := "pending",
             data := .jobj [("text", .jstr "b")], result := none } :=
  ⟨rfl, rfl⟩

end Stario
